import Mathlib

/-!
# Tennis-ball splash animation (`script.js`)

A shallow embedding of the two classes `TennisBall` and `TennisAnimation`
of `script.js`, and theorems about the per-tick physics step, the spawn
formulas and the run loop.

Numbers are rationals: every statement below is about the exact-arithmetic
reading of the JavaScript formulas.  Calls to `Math.random()` are explicit
arguments (a draw `r` with `0 ≤ r < 1`).  The canvas is shared, mutable
state of the controller; the ball methods that read `this.canvas.height`
take the canvas as an argument.
-/

namespace TennisSplash

/-! ## Data model -/

/-- The part of the canvas element that the script reads and writes. -/
structure Canvas where
  width : ℚ
  height : ℚ
deriving DecidableEq, Repr

/-- The fields of a `TennisBall` instance (the `canvas` reference is passed
separately to the methods that read it). -/
structure TennisBall where
  x : ℚ
  y : ℚ
  radius : ℚ
  velocity : ℚ
  gravity : ℚ
  bounce : ℚ
  rotation : ℚ
  rotationSpeed : ℚ
deriving DecidableEq, Repr

namespace TennisBall

/-- The `constructor(canvas, x, y)`; `r₁` and `r₂` are the two
`Math.random()` draws, in program order. -/
def new (x y r₁ r₂ : ℚ) : TennisBall :=
  { x := x
    y := y
    radius := 20
    velocity := r₁ * 3 + 2
    gravity := 3 / 10
    bounce := 7 / 10
    rotation := 0
    rotationSpeed := (r₂ - 1 / 2) * (2 / 10) }

/-- The method `update()`: one physics tick against the canvas `c`. -/
def update (c : Canvas) (b : TennisBall) : TennisBall :=
  let velocity := b.velocity + b.gravity
  let y := b.y + velocity
  let rotation := b.rotation + b.rotationSpeed
  if y + b.radius > c.height then
    let y := c.height - b.radius
    let velocity := velocity * (-b.bounce)
    if |velocity| < 1 / 2 then
      { b with y := y, velocity := 0, rotation := rotation }
    else
      { b with y := y, velocity := velocity, rotation := rotation }
  else
    { b with y := y, velocity := velocity, rotation := rotation }

/-- The test of the `if` in `update`, on the state before the call: the
position after the gravity and position increments is below the floor. -/
def hitsFloor (c : Canvas) (b : TennisBall) : Prop :=
  b.y + (b.velocity + b.gravity) + b.radius > c.height

instance (c : Canvas) (b : TennisBall) : Decidable (hitsFloor c b) := by
  unfold hitsFloor; infer_instance

/-- The state after `n` calls of `update` with the canvas unchanged. -/
def updateN (c : Canvas) : Nat → TennisBall → TennisBall
  | 0, b => b
  | n + 1, b => updateN c n (update c b)

/-- The three per-instance constants as the constructor sets them; no
method assigns them afterwards. -/
def Constructed (b : TennisBall) : Prop :=
  b.radius = 20 ∧ b.gravity = 3 / 10 ∧ b.bounce = 7 / 10

instance (b : TennisBall) : Decidable (Constructed b) := by
  unfold Constructed; infer_instance

/-- The `Advance()` step as the specification words it, with the constants
written out: gravity `0.3`, radius `20`, bounce `0.7`, threshold `0.5`. -/
def Advance (H : ℚ) (b : TennisBall) : TennisBall :=
  let v1 := b.velocity + 3 / 10
  let y1 := b.y + v1
  let rot := b.rotation + b.rotationSpeed
  if y1 + 20 > H then
    { b with y := H - 20
             velocity := if |(-(7 / 10 : ℚ)) * v1| < 1 / 2 then 0 else (-(7 / 10 : ℚ)) * v1
             rotation := rot }
  else
    { b with y := y1, velocity := v1, rotation := rot }

/-- A conserved quantity of free flight: `v² + g·v + 2·g·d`, with `d` the
height of the lowest point of the ball above the floor. -/
def energy (c : Canvas) (b : TennisBall) : ℚ :=
  b.velocity ^ 2 + b.gravity * b.velocity + 2 * b.gravity * (c.height - b.radius - b.y)

/-- A ball as `init` spawns it, above a canvas of height 800. -/
def spawnedBall : TennisBall := TennisBall.new 500 (-100) (1 / 2) (1 / 2)

/-- A ball as the constructor builds it, one tick before it settles on a
canvas of height 800. -/
def sampleBall : TennisBall :=
  { x := 500, y := 780, radius := 20, velocity := 1 / 5, gravity := 3 / 10,
    bounce := 7 / 10, rotation := 0, rotationSpeed := 1 / 20 }

/-- A canvas of 1000 by 800. -/
def sampleCanvas : Canvas := { width := 1000, height := 800 }

/-- The canvas after a resize that adds a tenth of a unit to the height. -/
def tallerCanvas : Canvas := { width := 1000, height := 8001 / 10 }

/-- The canvas after a resize to 1000 by 801. -/
def resizedCanvas : Canvas := { width := 1000, height := 801 }

end TennisBall

/-! ## Controller -/

/-- A call made during a frame, in program order. -/
inductive Call where
  /-- A call `ctx.clearRect(x, y, w, h)`. -/
  | clearRect (x y w h : ℚ)
  /-- A call `ball.update()` entered on the ball in the given state. -/
  | update (b : TennisBall)
  /-- A call `ball.draw(ctx)` on the ball in the given state. -/
  | draw (b : TennisBall)
deriving DecidableEq, Repr

/-- A callback handed to `requestAnimationFrame`; the script registers only
`() => this.animate()`. -/
inductive FrameCallback where
  | animate
deriving DecidableEq, Repr

/-- The state of a `TennisAnimation`, with the pending animation-frame
callbacks and the calls made so far. -/
structure TennisAnimation where
  canvas : Canvas
  balls : List TennisBall
  animationComplete : Bool
  scheduled : List FrameCallback
  trace : List Call
deriving DecidableEq, Repr

namespace TennisAnimation

/-- The ball count `Math.floor(Math.random() * 5) + 8` of `init`. -/
def ballCount (r : ℚ) : ℤ := ⌊r * 5⌋ + 8

/-- The abscissa `Math.random() * (this.canvas.width - 80) + 40` of `init`. -/
def spawnX (W r : ℚ) : ℚ := r * (W - 80) + 40

/-- The ordinate `-50 - Math.random() * 100` of `init`. -/
def spawnY (r : ℚ) : ℚ := -50 - r * 100

/-- The body of a spawn timer of `init`; the four draws are in program
order (x, y, then the two of the ball constructor). -/
def spawn (s : TennisAnimation) (rx ry rv rr : ℚ) : TennisAnimation :=
  { s with balls := s.balls ++ [TennisBall.new (spawnX s.canvas.width rx) (spawnY ry) rv rr] }

/-- The `forEach` of `animate`: each ball is updated, then drawn, before
the next ball is visited.  Returns the balls after the loop and the calls
made. -/
def forEachBall (c : Canvas) : List TennisBall → List TennisBall × List Call
  | [] => ([], [])
  | b :: bs =>
    let b1 := TennisBall.update c b
    let rest := forEachBall c bs
    (b1 :: rest.1, Call.update b :: Call.draw b1 :: rest.2)

/-- The method `animate()`. -/
def animate (s : TennisAnimation) : TennisAnimation :=
  if s.animationComplete then s
  else
    let cleared := s.trace ++ [Call.clearRect 0 0 s.canvas.width s.canvas.height]
    let loop := forEachBall s.canvas s.balls
    { s with balls := loop.1
             trace := cleared ++ loop.2
             scheduled := s.scheduled ++ [FrameCallback.animate] }

/-- The method `resizeCanvas()`, with the inner size of the window as arguments. -/
def resizeCanvas (s : TennisAnimation) (w h : ℚ) : TennisAnimation :=
  { s with canvas := { width := w, height := h } }

/-- The method `endAnimation()`, as far as the controller state goes (the
class list and style of the overlay are not modelled). -/
def endAnimation (s : TennisAnimation) : TennisAnimation :=
  { s with animationComplete := true }

/-- The state `init()` leaves when the constructor returns, for a window of
inner size `w × h`: no ball yet, and `animate()` has run once. -/
def start (w h : ℚ) : TennisAnimation :=
  animate
    { canvas := { width := w, height := h }
      balls := []
      animationComplete := false
      scheduled := []
      trace := [] }

/-- What the event loop can run after the constructor has returned. -/
inductive Event where
  /-- The browser runs the oldest pending animation-frame callback. -/
  | frame
  /-- A spawn timer of `init` fires, with its four random draws. -/
  | spawn (rx ry rv rr : ℚ)
  /-- The 4500 ms timer of `init` fires. -/
  | endAnimation
  /-- A `resize` event, with the new inner size of the window. -/
  | resize (w h : ℚ)
deriving DecidableEq, Repr

/-- The browser takes the oldest pending animation-frame callback off the
list, if there is one, and calls it. -/
def runFrame (s : TennisAnimation) : TennisAnimation :=
  match s.scheduled with
  | [] => s
  | FrameCallback.animate :: rest => animate { s with scheduled := rest }

/-- One callback of the event loop. -/
def step (s : TennisAnimation) : Event → TennisAnimation
  | Event.frame => runFrame s
  | Event.spawn rx ry rv rr => spawn s rx ry rv rr
  | Event.endAnimation => endAnimation s
  | Event.resize w h => resizeCanvas s w h

/-- A sequence of callbacks, oldest first. -/
def run (s : TennisAnimation) (es : List Event) : TennisAnimation :=
  es.foldl step s

/-- A controller on a 1000 by 800 window after its first spawn timer. -/
def sampleAnimation : TennisAnimation :=
  spawn (start 1000 800) (1 / 2) (1 / 2) (1 / 2) (1 / 2)

/-- A session: one ball spawned, one frame, then the end timer. -/
def sampleEvents : List Event :=
  [Event.spawn (1 / 2) (1 / 2) (1 / 2) (1 / 2), Event.frame, Event.endAnimation]

/-- Callbacks after the frame that saw the flag: frames, a late spawn and a
resize. -/
def sampleLater : List Event :=
  [Event.frame, Event.spawn (1 / 4) (1 / 4) (1 / 4) (1 / 4), Event.resize 640 480, Event.frame]

end TennisAnimation

/-! ## Helper lemmas on `update` -/

namespace TennisBall

theorem update_radius (c : Canvas) (b : TennisBall) : (update c b).radius = b.radius := by
  unfold update; simp only []; split_ifs <;> rfl

theorem update_gravity (c : Canvas) (b : TennisBall) : (update c b).gravity = b.gravity := by
  unfold update; simp only []; split_ifs <;> rfl

theorem update_bounce (c : Canvas) (b : TennisBall) : (update c b).bounce = b.bounce := by
  unfold update; simp only []; split_ifs <;> rfl

theorem update_constructed (c : Canvas) (b : TennisBall) (h : Constructed b) :
    Constructed (update c b) := by
  unfold Constructed at *
  rw [update_radius, update_gravity, update_bounce]; exact h

theorem updateN_constructed (c : Canvas) (n : Nat) (b : TennisBall) (h : Constructed b) :
    Constructed (updateN c n b) := by
  induction n generalizing b with
  | zero => exact h
  | succ n ih => exact ih _ (update_constructed c b h)

theorem updateN_succ (c : Canvas) (n : Nat) (b : TennisBall) :
    updateN c (n + 1) b = update c (updateN c n b) := by
  induction n generalizing b with
  | zero => rfl
  | succ n ih => exact ih (update c b)

theorem updateN_add (c : Canvas) (m n : Nat) (b : TennisBall) :
    updateN c (m + n) b = updateN c n (updateN c m b) := by
  induction m generalizing b with
  | zero => simp [updateN]
  | succ m ih =>
    have : m + 1 + n = (m + n) + 1 := by omega
    rw [this]; exact ih (update c b)

/-- The floor bound holds after any call of `update`. -/
theorem update_floor (c : Canvas) (b : TennisBall) :
    (update c b).y + (update c b).radius ≤ c.height := by
  unfold update; simp only []
  split_ifs with h1 h2
  · simp
  · simp
  · simpa using not_lt.mp h1

/-- A ball at rest on the floor is at rest on the floor after one more call. -/
theorem update_rest (c : Canvas) (b : TennisBall) (h : Constructed b)
    (hy : b.y = c.height - 20) (hv : b.velocity = 0) :
    (update c b).y = c.height - 20 ∧ (update c b).velocity = 0 := by
  obtain ⟨hr, hg, hb⟩ := h
  unfold update; simp only [hr, hg, hb, hy, hv]
  have h1 : c.height - 20 + (0 + 3 / 10) + 20 > c.height := by linarith
  have h2 : |(0 + 3 / 10 : ℚ) * -(7 / 10)| < 1 / 2 := by
    rw [abs_lt]; constructor <;> norm_num
  rw [if_pos h1, if_pos h2]
  exact ⟨rfl, rfl⟩

theorem updateN_rest (c : Canvas) (n : Nat) (b : TennisBall) (h : Constructed b)
    (hy : b.y = c.height - 20) (hv : b.velocity = 0) :
    (updateN c n b).y = c.height - 20 ∧ (updateN c n b).velocity = 0 := by
  induction n generalizing b with
  | zero => exact ⟨hy, hv⟩
  | succ n ih =>
    obtain ⟨hy1, hv1⟩ := update_rest c b h hy hv
    exact ih _ (update_constructed c b h) hy1 hv1

/-- A call that takes the floor branch with a reflected speed under the
threshold leaves the ball at rest on the floor. -/
theorem update_settle (c : Canvas) (b : TennisBall) (hf : hitsFloor c b)
    (hs : |(b.velocity + b.gravity) * (-b.bounce)| < 1 / 2) :
    (update c b).y = c.height - b.radius ∧ (update c b).velocity = 0 := by
  unfold hitsFloor at hf
  unfold update; simp only []
  rw [if_pos hf, if_pos hs]
  exact ⟨rfl, rfl⟩

/-- A call that does not take the floor branch. -/
theorem update_free (c : Canvas) (b : TennisBall) (hf : ¬ hitsFloor c b) :
    (update c b).velocity = b.velocity + b.gravity ∧
    (update c b).y = b.y + (b.velocity + b.gravity) := by
  unfold hitsFloor at hf
  unfold update; simp only []
  rw [if_neg hf]
  exact ⟨rfl, rfl⟩

/-! ## The physics step -/

/-- C1: on every constructed ball and every canvas, `update` is the
`Advance()` step of the specification; and when the floor branch is taken,
the velocity left is `-v * 0.7` for the contact velocity `v`, unless
`|-v * 0.7| < 0.5`, in which case it is `0`. -/
theorem update_eq_Advance (c : Canvas) (b : TennisBall) (h : Constructed b) :
    update c b = Advance c.height b ∧
    (hitsFloor c b →
      (|(-(b.velocity + 3 / 10)) * (7 / 10)| < 1 / 2 → (update c b).velocity = 0) ∧
      (¬ |(-(b.velocity + 3 / 10)) * (7 / 10)| < 1 / 2 →
        (update c b).velocity = (-(b.velocity + 3 / 10)) * (7 / 10))) := by
  obtain ⟨hr, hg, hb⟩ := h
  have e1 : (b.velocity + 3 / 10) * -(7 / 10 : ℚ) = -(7 / 10) * (b.velocity + 3 / 10) := by ring
  have e2 : (-(b.velocity + 3 / 10)) * (7 / 10 : ℚ) = -(7 / 10) * (b.velocity + 3 / 10) := by ring
  refine ⟨?_, ?_⟩
  · unfold update Advance; simp only [hr, hg, hb, e1]
    split_ifs <;> rfl
  · intro hf
    unfold hitsFloor at hf
    rw [hr, hg] at hf
    unfold update; simp only [hr, hg, hb, e1, e2]
    rw [if_pos hf]
    constructor
    · intro hs; rw [if_pos hs]
    · intro hs; rw [if_neg hs]

theorem update_eq_Advance_witness :
    Constructed sampleBall ∧
    (update sampleCanvas sampleBall = Advance sampleCanvas.height sampleBall ∧
    (hitsFloor sampleCanvas sampleBall →
      (|(-(sampleBall.velocity + 3 / 10)) * (7 / 10)| < 1 / 2 →
        (update sampleCanvas sampleBall).velocity = 0) ∧
      (¬ |(-(sampleBall.velocity + 3 / 10)) * (7 / 10)| < 1 / 2 →
        (update sampleCanvas sampleBall).velocity
          = (-(sampleBall.velocity + 3 / 10)) * (7 / 10)))) :=
  ⟨by unfold Constructed sampleBall; norm_num,
   update_eq_Advance sampleCanvas sampleBall (by unfold Constructed sampleBall; norm_num)⟩

/-- C2: the state returned by `update` satisfies `y + radius ≤ H`, for every
ball state and canvas; hence, with the canvas unchanged, the bound holds
after every tick, whatever the number of calls. -/
theorem floor_invariant (c : Canvas) (b : TennisBall) :
    (update c b).y + (update c b).radius ≤ c.height ∧
    ∀ n : Nat, (updateN c (n + 1) b).y + (updateN c (n + 1) b).radius ≤ c.height := by
  refine ⟨update_floor c b, fun n => ?_⟩
  rw [updateN_succ]
  exact update_floor c _

/-- C3: once a call of `update` has settled the ball (floor branch taken,
reflected speed under `0.5`), the ball is at `y = H - radius` with velocity
`0`, and stays so after any number of further calls on the same canvas. -/
theorem settled_stays (c : Canvas) (b : TennisBall) (h : Constructed b)
    (hf : hitsFloor c b) (hs : |(b.velocity + b.gravity) * (-b.bounce)| < 1 / 2) (n : Nat) :
    (updateN c n (update c b)).y = c.height - (updateN c n (update c b)).radius ∧
    (updateN c n (update c b)).velocity = 0 := by
  obtain ⟨hy, hv⟩ := update_settle c b hf hs
  have hc := update_constructed c b h
  rw [h.1] at hy
  rw [(updateN_constructed c n _ hc).1]
  exact updateN_rest c n _ hc hy hv

theorem settled_stays_witness :
    Constructed sampleBall ∧ hitsFloor sampleCanvas sampleBall ∧
    |(sampleBall.velocity + sampleBall.gravity) * (-sampleBall.bounce)| < 1 / 2 ∧
    ((updateN sampleCanvas 3 (update sampleCanvas sampleBall)).y
        = sampleCanvas.height - (updateN sampleCanvas 3 (update sampleCanvas sampleBall)).radius ∧
      (updateN sampleCanvas 3 (update sampleCanvas sampleBall)).velocity = 0) :=
  ⟨by unfold Constructed sampleBall; norm_num,
   by unfold hitsFloor sampleBall sampleCanvas; norm_num,
   by unfold sampleBall; rw [abs_lt]; constructor <;> norm_num,
   settled_stays sampleCanvas sampleBall (by unfold Constructed sampleBall; norm_num)
     (by unfold hitsFloor sampleBall sampleCanvas; norm_num)
     (by unfold sampleBall; rw [abs_lt]; constructor <;> norm_num) 3⟩

/-- C4, as stated, fails: `sampleBall` is settled by a call of `update`
(floor branch, reflected speed under `0.5`, velocity left `0`), and the
next call, on the same canvas, leaves the velocity `0` again instead of a
non-zero one. -/
theorem settled_reenters_counterexample :
    Constructed sampleBall ∧ hitsFloor sampleCanvas sampleBall ∧
    |(sampleBall.velocity + sampleBall.gravity) * (-sampleBall.bounce)| < 1 / 2 ∧
    (update sampleCanvas sampleBall).velocity = 0 ∧
    ¬ (update sampleCanvas (update sampleCanvas sampleBall)).velocity ≠ 0 := by
  have hc : Constructed sampleBall := by unfold Constructed sampleBall; norm_num
  have hf : hitsFloor sampleCanvas sampleBall := by
    unfold hitsFloor sampleBall sampleCanvas; norm_num
  have hs : |(sampleBall.velocity + sampleBall.gravity) * (-sampleBall.bounce)| < 1 / 2 := by
    unfold sampleBall; rw [abs_lt]; constructor <;> norm_num
  obtain ⟨hy, hv⟩ := update_settle sampleCanvas sampleBall hf hs
  rw [hc.1] at hy
  refine ⟨hc, hf, hs, hv, ?_⟩
  rw [not_not]
  exact (update_rest sampleCanvas _ (update_constructed _ _ hc) hy hv).2

/-- C4, amended: after a call of `update` on canvas `c` that settles the
ball, the next call does add gravity (the velocity at the floor test is
`0.3`, downward).  With the canvas height unchanged between the two calls,
that call takes the floor branch again and settles again: it leaves the
velocity `0` and `y = H - radius`; the same holds on any canvas `c2` whose
height is below the height at settling plus `0.3`.  Only when the canvas
has grown by at least `0.3` in between does the ball re-enter motion: the
call then skips the floor branch and leaves the velocity `0.3`. -/
theorem settled_next_tick (c : Canvas) (b : TennisBall) (h : Constructed b)
    (hf : hitsFloor c b) (hs : |(b.velocity + b.gravity) * (-b.bounce)| < 1 / 2) :
    (update c b).velocity = 0 ∧
    (update c b).velocity + (update c b).gravity = 3 / 10 ∧
    (hitsFloor c (update c b) ∧
      (update c (update c b)).velocity = 0 ∧
      (update c (update c b)).y = c.height - (update c (update c b)).radius) ∧
    (∀ c2 : Canvas, c2.height < c.height + 3 / 10 →
      hitsFloor c2 (update c b) ∧
      (update c2 (update c b)).velocity = 0 ∧
      (update c2 (update c b)).y = c2.height - (update c2 (update c b)).radius) ∧
    (∀ c2 : Canvas, c.height + 3 / 10 ≤ c2.height →
      ¬ hitsFloor c2 (update c b) ∧
      (update c2 (update c b)).velocity = 3 / 10 ∧
      (update c2 (update c b)).y = c.height - (update c b).radius + 3 / 10) := by
  obtain ⟨hy, hv⟩ := update_settle c b hf hs
  obtain ⟨hr1, hg1, hb1⟩ := update_constructed c b h
  rw [h.1] at hy
  have hsettle : ∀ c2 : Canvas, c2.height < c.height + 3 / 10 →
      hitsFloor c2 (update c b) ∧
      (update c2 (update c b)).velocity = 0 ∧
      (update c2 (update c b)).y = c2.height - (update c2 (update c b)).radius := by
    intro c2 hlt
    have hf2 : hitsFloor c2 (update c b) := by
      unfold hitsFloor; rw [hy, hv, hg1, hr1]; linarith
    have hs2 : |((update c b).velocity + (update c b).gravity) * (-(update c b).bounce)|
        < 1 / 2 := by
      rw [hv, hg1, hb1, abs_lt]; constructor <;> norm_num
    obtain ⟨hy2, hv2⟩ := update_settle c2 _ hf2 hs2
    exact ⟨hf2, hv2, by rw [update_radius]; exact hy2⟩
  refine ⟨hv, ?_, hsettle c (by linarith), hsettle, ?_⟩
  · rw [hv, hg1]; norm_num
  · intro c2 hge
    have hf2 : ¬ hitsFloor c2 (update c b) := by
      unfold hitsFloor; rw [hy, hv, hg1, hr1]; intro hgt; linarith
    obtain ⟨hv2, hy2⟩ := update_free c2 _ hf2
    refine ⟨hf2, ?_, ?_⟩
    · rw [hv2, hv, hg1]; norm_num
    · rw [hy2, hy, hv, hg1, hr1]; ring

theorem settled_next_tick_witness :
    Constructed sampleBall ∧ hitsFloor sampleCanvas sampleBall ∧
    |(sampleBall.velocity + sampleBall.gravity) * (-sampleBall.bounce)| < 1 / 2 ∧
    ((update sampleCanvas sampleBall).velocity = 0 ∧
      (update sampleCanvas sampleBall).velocity + (update sampleCanvas sampleBall).gravity
        = 3 / 10) ∧
    (hitsFloor sampleCanvas (update sampleCanvas sampleBall) ∧
      (update sampleCanvas (update sampleCanvas sampleBall)).velocity = 0 ∧
      (update sampleCanvas (update sampleCanvas sampleBall)).y
        = sampleCanvas.height
          - (update sampleCanvas (update sampleCanvas sampleBall)).radius) ∧
    (tallerCanvas.height < sampleCanvas.height + 3 / 10 ∧
      hitsFloor tallerCanvas (update sampleCanvas sampleBall) ∧
      (update tallerCanvas (update sampleCanvas sampleBall)).velocity = 0 ∧
      (update tallerCanvas (update sampleCanvas sampleBall)).y
        = tallerCanvas.height
          - (update tallerCanvas (update sampleCanvas sampleBall)).radius) ∧
    (sampleCanvas.height + 3 / 10 ≤ resizedCanvas.height ∧
      ¬ hitsFloor resizedCanvas (update sampleCanvas sampleBall) ∧
      (update resizedCanvas (update sampleCanvas sampleBall)).velocity = 3 / 10 ∧
      (update resizedCanvas (update sampleCanvas sampleBall)).y
        = sampleCanvas.height - (update sampleCanvas sampleBall).radius + 3 / 10) :=
  have hc : Constructed sampleBall := by unfold Constructed sampleBall; norm_num
  have hf : hitsFloor sampleCanvas sampleBall := by
    unfold hitsFloor sampleBall sampleCanvas; norm_num
  have hs : |(sampleBall.velocity + sampleBall.gravity) * (-sampleBall.bounce)| < 1 / 2 := by
    unfold sampleBall; rw [abs_lt]; constructor <;> norm_num
  have ht : tallerCanvas.height < sampleCanvas.height + 3 / 10 := by
    unfold tallerCanvas sampleCanvas; norm_num
  have hr : sampleCanvas.height + 3 / 10 ≤ resizedCanvas.height := by
    unfold resizedCanvas sampleCanvas; norm_num
  ⟨hc, hf, hs,
   ⟨(settled_next_tick sampleCanvas sampleBall hc hf hs).1,
    (settled_next_tick sampleCanvas sampleBall hc hf hs).2.1⟩,
   (settled_next_tick sampleCanvas sampleBall hc hf hs).2.2.1,
   ⟨ht, (settled_next_tick sampleCanvas sampleBall hc hf hs).2.2.2.1 tallerCanvas ht⟩,
   ⟨hr, (settled_next_tick sampleCanvas sampleBall hc hf hs).2.2.2.2 resizedCanvas hr⟩⟩

end TennisBall

namespace TennisAnimation

/-! ## Spawn formulas -/

/-- C5, as stated, fails: on a surface of width 60 the draw `1/2` gives
`x = 30`, which is not in `[40, W - 40] = [40, 20]`. -/
theorem spawnX_counterexample :
    (0 : ℚ) ≤ 1 / 2 ∧ (1 / 2 : ℚ) < 1 ∧ spawnX 60 (1 / 2) = 30 ∧
    ¬ (40 ≤ spawnX 60 (1 / 2) ∧ spawnX 60 (1 / 2) ≤ 60 - 40) := by
  unfold spawnX; norm_num

/-- C5, amended: for every surface width `W ≥ 80` and every draw `r` in
`[0, 1)`, the spawn abscissa `r * (W - 80) + 40` lies in `[40, W - 40]`, so
a ball of radius 20 is fully on the surface horizontally. -/
theorem spawnX_range (W r : ℚ) (hW : 80 ≤ W) (h0 : 0 ≤ r) (h1 : r < 1) :
    (40 ≤ spawnX W r ∧ spawnX W r ≤ W - 40) ∧
    (0 ≤ spawnX W r - 20 ∧ spawnX W r + 20 ≤ W) := by
  unfold spawnX
  have hd : 0 ≤ W - 80 := by linarith
  have ha : 0 ≤ r * (W - 80) := mul_nonneg h0 hd
  have hb : r * (W - 80) ≤ 1 * (W - 80) := mul_le_mul_of_nonneg_right h1.le hd
  refine ⟨⟨?_, ?_⟩, ?_, ?_⟩ <;> linarith

theorem spawnX_range_witness :
    (80 : ℚ) ≤ 1000 ∧ (0 : ℚ) ≤ 1 / 4 ∧ (1 / 4 : ℚ) < 1 ∧
    ((40 ≤ spawnX 1000 (1 / 4) ∧ spawnX 1000 (1 / 4) ≤ 1000 - 40) ∧
     (0 ≤ spawnX 1000 (1 / 4) - 20 ∧ spawnX 1000 (1 / 4) + 20 ≤ 1000)) :=
  ⟨by norm_num, by norm_num, by norm_num,
   spawnX_range 1000 (1 / 4) (by norm_num) (by norm_num) (by norm_num)⟩

/-- C6: for every draw `r` in `[0, 1)` the ball count `⌊r * 5⌋ + 8` is an
integer between 8 and 12 inclusive, and each of 8, 9, 10, 11, 12 is the
count of some draw in `[0, 1)`. -/
theorem ballCount_range (r : ℚ) (h0 : 0 ≤ r) (h1 : r < 1) :
    (8 ≤ ballCount r ∧ ballCount r ≤ 12) ∧
    ∀ k : ℤ, 8 ≤ k → k ≤ 12 → ∃ q : ℚ, 0 ≤ q ∧ q < 1 ∧ ballCount q = k := by
  constructor
  · unfold ballCount
    have ha : 0 ≤ ⌊r * 5⌋ := Int.floor_nonneg.mpr (by linarith)
    have hb : ⌊r * 5⌋ < 5 := Int.floor_lt.mpr (by push_cast; linarith)
    omega
  · intro k hk8 hk12
    refine ⟨((k - 8 : ℤ) : ℚ) / 5, ?_, ?_, ?_⟩
    · have : (0 : ℚ) ≤ ((k - 8 : ℤ) : ℚ) := by exact_mod_cast (by omega : (0 : ℤ) ≤ k - 8)
      positivity
    · have : ((k - 8 : ℤ) : ℚ) < 5 := by exact_mod_cast (by omega : k - 8 < 5)
      rw [div_lt_one (by norm_num)]; exact this
    · unfold ballCount
      rw [div_mul_cancel₀ _ (by norm_num : (5 : ℚ) ≠ 0), Int.floor_intCast]
      omega

theorem ballCount_range_witness :
    (0 : ℚ) ≤ 1 / 2 ∧ (1 / 2 : ℚ) < 1 ∧
    ((8 ≤ ballCount (1 / 2) ∧ ballCount (1 / 2) ≤ 12) ∧
    ∀ k : ℤ, 8 ≤ k → k ≤ 12 → ∃ q : ℚ, 0 ≤ q ∧ q < 1 ∧ ballCount q = k) :=
  ⟨by norm_num, by norm_num, ballCount_range (1 / 2) (by norm_num) (by norm_num)⟩

/-- C7: for every draw `r` in `[0, 1)` the spawn ordinate `-50 - r * 100`
lies in `[-150, -50]`; so for the ball the constructor builds there,
`y + radius < 0`: it starts entirely above the top edge. -/
theorem spawnY_range (r : ℚ) (h0 : 0 ≤ r) (h1 : r < 1) :
    (-150 ≤ spawnY r ∧ spawnY r ≤ -50) ∧
    ∀ x rv rr : ℚ, (TennisBall.new x (spawnY r) rv rr).y
      + (TennisBall.new x (spawnY r) rv rr).radius < 0 := by
  unfold spawnY TennisBall.new
  refine ⟨⟨?_, ?_⟩, fun _ _ _ => ?_⟩
  · linarith
  · linarith
  · simp only []; linarith

theorem spawnY_range_witness :
    (0 : ℚ) ≤ 3 / 4 ∧ (3 / 4 : ℚ) < 1 ∧
    ((-150 ≤ spawnY (3 / 4) ∧ spawnY (3 / 4) ≤ -50) ∧
    ∀ x rv rr : ℚ, (TennisBall.new x (spawnY (3 / 4)) rv rr).y
      + (TennisBall.new x (spawnY (3 / 4)) rv rr).radius < 0) :=
  ⟨by norm_num, by norm_num, spawnY_range (3 / 4) (by norm_num) (by norm_num)⟩

/-! ## The run loop -/

theorem forEachBall_balls (c : Canvas) (bs : List TennisBall) :
    (forEachBall c bs).1 = bs.map (TennisBall.update c) := by
  induction bs with
  | nil => rfl
  | cons b bs ih => simp [forEachBall, ih]

theorem forEachBall_calls (c : Canvas) (bs : List TennisBall) :
    (forEachBall c bs).2
      = bs.flatMap (fun b => [Call.update b, Call.draw (TennisBall.update c b)]) := by
  induction bs with
  | nil => rfl
  | cons b bs ih => simp [forEachBall, ih]

theorem animate_complete (s : TennisAnimation) (h : s.animationComplete = true) :
    animate s = s := by
  unfold animate; rw [if_pos h]

theorem animate_scheduled_length (s : TennisAnimation) :
    (animate s).scheduled.length ≤ s.scheduled.length + 1 := by
  unfold animate
  split_ifs <;> simp

theorem runFrame_nil (s : TennisAnimation) (h : s.scheduled = []) : runFrame s = s := by
  unfold runFrame; rw [h]

theorem runFrame_cons (s : TennisAnimation) (rest : List FrameCallback)
    (h : s.scheduled = FrameCallback.animate :: rest) :
    runFrame s = animate { s with scheduled := rest } := by
  unfold runFrame; rw [h]

/-- At most one animation-frame callback is pending; every callback of the
event loop keeps it so. -/
theorem step_scheduled_length (s : TennisAnimation) (e : Event)
    (h : s.scheduled.length ≤ 1) : (step s e).scheduled.length ≤ 1 := by
  cases e with
  | frame =>
    show (runFrame s).scheduled.length ≤ 1
    cases hs : s.scheduled with
    | nil => rw [runFrame_nil s hs, hs]; simp
    | cons f rest =>
      cases f
      rw [runFrame_cons s rest hs]
      rw [hs] at h
      have hrest : rest.length = 0 := by simpa using h
      have := animate_scheduled_length { s with scheduled := rest }
      simp only [hrest] at this
      exact this
  | spawn rx ry rv rr => exact h
  | endAnimation => exact h
  | resize w h2 => exact h

theorem run_scheduled_length (es : List Event) (s : TennisAnimation)
    (h : s.scheduled.length ≤ 1) : (run s es).scheduled.length ≤ 1 := by
  induction es generalizing s with
  | nil => exact h
  | cons e es ih => exact ih (step s e) (step_scheduled_length s e h)

theorem start_scheduled_length (w h : ℚ) : (start w h).scheduled.length ≤ 1 := by
  simp [start, animate, forEachBall]

/-- With the flag set and no frame pending, a callback of the event loop
keeps both, makes no call and leaves the balls it finds as they are. -/
theorem step_stopped (s : TennisAnimation) (e : Event)
    (hc : s.animationComplete = true) (hs : s.scheduled = []) :
    (step s e).animationComplete = true ∧ (step s e).scheduled = [] ∧
    (step s e).trace = s.trace ∧ ∃ added, (step s e).balls = s.balls ++ added := by
  cases e with
  | frame =>
    have : step s Event.frame = s := runFrame_nil s hs
    rw [this]; exact ⟨hc, hs, rfl, [], by simp⟩
  | spawn rx ry rv rr => exact ⟨hc, hs, rfl, _, rfl⟩
  | endAnimation => exact ⟨rfl, hs, rfl, [], by simp [step, endAnimation]⟩
  | resize w h => exact ⟨hc, hs, rfl, [], by simp [step, resizeCanvas]⟩

theorem run_stopped (es : List Event) (s : TennisAnimation)
    (hc : s.animationComplete = true) (hs : s.scheduled = []) :
    (run s es).animationComplete = true ∧ (run s es).scheduled = [] ∧
    (run s es).trace = s.trace ∧ ∃ added, (run s es).balls = s.balls ++ added := by
  induction es generalizing s with
  | nil => exact ⟨hc, hs, rfl, [], by simp [run]⟩
  | cons e es ih =>
    obtain ⟨hc1, hs1, ht1, a1, hb1⟩ := step_stopped s e hc hs
    obtain ⟨hc2, hs2, ht2, a2, hb2⟩ := ih (step s e) hc1 hs1
    refine ⟨hc2, hs2, ?_, a1 ++ a2, ?_⟩
    · exact ht2.trans ht1
    · show (run (step s e) es).balls = _
      rw [hb2, hb1, List.append_assoc]

/-- A frame that runs in a reachable state with the flag set changes nothing
but the pending list, which it leaves empty. -/
theorem frame_after_complete (s : TennisAnimation) (hl : s.scheduled.length ≤ 1)
    (hc : s.animationComplete = true) :
    (step s Event.frame).animationComplete = true ∧ (step s Event.frame).scheduled = [] ∧
    (step s Event.frame).trace = s.trace ∧ (step s Event.frame).balls = s.balls := by
  show (runFrame s).animationComplete = true ∧ (runFrame s).scheduled = [] ∧
    (runFrame s).trace = s.trace ∧ (runFrame s).balls = s.balls
  cases hs : s.scheduled with
  | nil => rw [runFrame_nil s hs]; exact ⟨hc, hs, rfl, rfl⟩
  | cons f rest =>
    cases f
    rw [hs] at hl
    have hrest : rest = [] := List.length_eq_zero.mp (by simpa using hl)
    rw [runFrame_cons s rest hs,
      animate_complete { s with scheduled := rest } hc]
    exact ⟨hc, hrest, rfl, rfl⟩

/-- C8: the run-loop step.  With the completion flag set, `animate` returns
the controller state as it found it: no ball changed, no call made, no
frame scheduled; and in any state reached from the constructor by
callbacks of the event loop, once a frame has observed the flag set, no
frame is pending ever after, no call is made and no ball present is
changed.  With the flag clear, `animate` clears the surface, applies
`update` once to each ball in collection order, draws each ball right
after its update, and schedules exactly one frame. -/
theorem animate_step (s : TennisAnimation) (w h : ℚ) (es later : List Event) :
    (s.animationComplete = true → animate s = s) ∧
    (s.animationComplete = false →
      (animate s).balls = s.balls.map (TennisBall.update s.canvas) ∧
      (animate s).trace
        = s.trace ++ Call.clearRect 0 0 s.canvas.width s.canvas.height ::
            s.balls.flatMap
              (fun b => [Call.update b, Call.draw (TennisBall.update s.canvas b)]) ∧
      (animate s).scheduled = s.scheduled ++ [FrameCallback.animate] ∧
      (animate s).animationComplete = false ∧ (animate s).canvas = s.canvas) ∧
    ((run (start w h) es).animationComplete = true →
      (run (step (run (start w h) es) Event.frame) later).scheduled = [] ∧
      step (run (step (run (start w h) es) Event.frame) later) Event.frame
        = run (step (run (start w h) es) Event.frame) later ∧
      (run (step (run (start w h) es) Event.frame) later).trace
        = (run (start w h) es).trace ∧
      ∃ added, (run (step (run (start w h) es) Event.frame) later).balls
        = (run (start w h) es).balls ++ added) := by
  refine ⟨animate_complete s, ?_, ?_⟩
  · intro hf
    unfold animate
    rw [if_neg (by simp [hf])]
    refine ⟨forEachBall_balls _ _, ?_, rfl, hf, rfl⟩
    show s.trace ++ [Call.clearRect 0 0 s.canvas.width s.canvas.height]
        ++ (forEachBall s.canvas s.balls).2 = _
    rw [forEachBall_calls, List.append_assoc, List.singleton_append]
  · intro hc
    have hl := run_scheduled_length es (start w h) (start_scheduled_length w h)
    obtain ⟨hc1, hs1, ht1, hb1⟩ := frame_after_complete _ hl hc
    obtain ⟨_, hs2, ht2, a, hb2⟩ := run_stopped later _ hc1 hs1
    refine ⟨hs2, ?_, ht2.trans ht1, a, ?_⟩
    · exact runFrame_nil _ hs2
    · rw [hb2, hb1]

theorem animate_step_witness :
    sampleAnimation.animationComplete = false ∧
    (run (start 1000 800) sampleEvents).animationComplete = true ∧
    ((animate sampleAnimation).balls
        = sampleAnimation.balls.map (TennisBall.update sampleAnimation.canvas) ∧
      (animate sampleAnimation).trace
        = sampleAnimation.trace ++
            Call.clearRect 0 0 sampleAnimation.canvas.width sampleAnimation.canvas.height ::
            sampleAnimation.balls.flatMap
              (fun b => [Call.update b, Call.draw (TennisBall.update sampleAnimation.canvas b)]) ∧
      (animate sampleAnimation).scheduled
        = sampleAnimation.scheduled ++ [FrameCallback.animate] ∧
      (animate sampleAnimation).animationComplete = false ∧
      (animate sampleAnimation).canvas = sampleAnimation.canvas) ∧
    ((run (step (run (start 1000 800) sampleEvents) Event.frame) sampleLater).scheduled = [] ∧
      step (run (step (run (start 1000 800) sampleEvents) Event.frame) sampleLater) Event.frame
        = run (step (run (start 1000 800) sampleEvents) Event.frame) sampleLater ∧
      (run (step (run (start 1000 800) sampleEvents) Event.frame) sampleLater).trace
        = (run (start 1000 800) sampleEvents).trace ∧
      ∃ added, (run (step (run (start 1000 800) sampleEvents) Event.frame) sampleLater).balls
        = (run (start 1000 800) sampleEvents).balls ++ added) :=
  ⟨rfl, rfl,
   (animate_step sampleAnimation 1000 800 sampleEvents sampleLater).2.1 rfl,
   (animate_step sampleAnimation 1000 800 sampleEvents sampleLater).2.2 rfl⟩

end TennisAnimation

namespace TennisBall

/-! ## Bounces -/

theorem updateN_floor (c : Canvas) (b : TennisBall) (h0 : b.y + b.radius ≤ c.height)
    (n : Nat) : (updateN c n b).y + (updateN c n b).radius ≤ c.height := by
  cases n with
  | zero => exact h0
  | succ n => rw [updateN_succ]; exact update_floor c _

/-- A call that takes the floor branch, on a ball that is not below the
floor: the contact velocity is positive, and the velocity left is `0` or
the reflected one, of magnitude at least `0.5`. -/
theorem update_contact (c : Canvas) (b : TennisBall) (h : Constructed b)
    (h0 : b.y + b.radius ≤ c.height) (hf : hitsFloor c b) :
    (update c b).y = c.height - 20 ∧ 0 < b.velocity + 3 / 10 ∧
    ((update c b).velocity = 0 ∨
      (1 / 2 ≤ -(update c b).velocity ∧
        -(update c b).velocity = 7 / 10 * (b.velocity + 3 / 10))) := by
  obtain ⟨hr, hg, hb⟩ := h
  unfold hitsFloor at hf
  have hpos : 0 < b.velocity + 3 / 10 := by rw [hg] at hf; linarith
  unfold update; simp only []
  rw [if_pos hf]
  simp only [hr, hg, hb]
  refine ⟨?_, hpos, ?_⟩
  · split_ifs <;> rfl
  · by_cases hs : |(b.velocity + 3 / 10) * -(7 / 10 : ℚ)| < 1 / 2
    · left; rw [if_pos hs]
    · right
      rw [if_neg hs]
      have habs : |(b.velocity + 3 / 10) * -(7 / 10 : ℚ)| = 7 / 10 * (b.velocity + 3 / 10) := by
        rw [abs_of_nonpos (by nlinarith)]; ring
      rw [habs] at hs
      refine ⟨?_, ?_⟩
      · show 1 / 2 ≤ -((b.velocity + 3 / 10) * -(7 / 10 : ℚ))
        linarith [not_lt.mp hs]
      · show -((b.velocity + 3 / 10) * -(7 / 10 : ℚ)) = _
        ring

/-- The energy does not change in a call that does not take the floor branch. -/
theorem update_energy (c : Canvas) (b : TennisBall) (hf : ¬ hitsFloor c b) :
    energy c (update c b) = energy c b := by
  obtain ⟨hv, hy⟩ := update_free c b hf
  unfold energy
  rw [hv, hy, update_gravity, update_radius]
  ring

/-- Free flight: as long as no call takes the floor branch, the velocity
grows by the gravity constant per call and the energy is conserved. -/
theorem updateN_free (c : Canvas) (b : TennisBall) (h : Constructed b) (j : Nat)
    (hfree : ∀ i, i < j → ¬ hitsFloor c (updateN c i b)) :
    (updateN c j b).velocity = b.velocity + 3 / 10 * j ∧
    energy c (updateN c j b) = energy c b := by
  induction j with
  | zero => simp [updateN]
  | succ j ih =>
    obtain ⟨hv, he⟩ := ih (fun i hi => hfree i (Nat.lt_succ_of_lt hi))
    have hf := hfree j (Nat.lt_succ_self j)
    have hg := (updateN_constructed c j b h).2.1
    rw [updateN_succ, update_energy c _ hf, (update_free c _ hf).1, hv, hg, he]
    refine ⟨?_, rfl⟩
    push_cast; ring

/-- A ball that is not below the floor reaches it: some call takes the floor
branch, and there is a first one. -/
theorem exists_contact (c : Canvas) (b : TennisBall) (h : Constructed b)
    (h0 : b.y + b.radius ≤ c.height) :
    ∃ k, hitsFloor c (updateN c k b) ∧ ∀ i, i < k → ¬ hitsFloor c (updateN c i b) := by
  have hex : ∃ k, hitsFloor c (updateN c k b) := by
    by_contra hne
    push_neg at hne
    obtain ⟨j, hj⟩ := exists_nat_gt ((|b.velocity| + |energy c b| + 1) / (3 / 10))
    obtain ⟨hv, he⟩ := updateN_free c b h j (fun i _ => hne i)
    have hfl := updateN_floor c b h0 j
    have hc := updateN_constructed c j b h
    rw [div_lt_iff₀ (by norm_num)] at hj
    have h1 := neg_abs_le b.velocity
    have h2 := le_abs_self (energy c b)
    have h3 := abs_nonneg (energy c b)
    have hbig : 1 + energy c b < (updateN c j b).velocity := by rw [hv]; linarith
    have hge1 : 1 ≤ (updateN c j b).velocity := by rw [hv]; linarith
    have hE : energy c (updateN c j b)
        = (updateN c j b).velocity ^ 2 + 3 / 10 * (updateN c j b).velocity
          + 2 * (3 / 10) * (c.height - (updateN c j b).radius - (updateN c j b).y) := by
      unfold energy; rw [hc.2.1]
    rw [he] at hE
    nlinarith [mul_nonneg (by linarith : (0 : ℚ) ≤ (updateN c j b).velocity)
      (by linarith : (0 : ℚ) ≤ (updateN c j b).velocity - 1)]
  classical
  exact ⟨Nat.find hex, Nat.find_spec hex, fun i hi => Nat.find_min hex hi⟩

/-- From the floor, going up at speed `u ≥ 0.5`, the ball is back on the
floor after finitely many calls, at rest or going up at a speed between
`0.5` and `0.7·u`. -/
theorem next_bounce (c : Canvas) (b : TennisBall) (h : Constructed b)
    (hy : b.y = c.height - 20) (hu : 1 / 2 ≤ -b.velocity) :
    ∃ k, (updateN c (k + 1) b).y = c.height - 20 ∧
      ((updateN c (k + 1) b).velocity = 0 ∨
        (1 / 2 ≤ -(updateN c (k + 1) b).velocity ∧
          -(updateN c (k + 1) b).velocity ≤ 7 / 10 * -b.velocity)) := by
  have h0 : b.y + b.radius ≤ c.height := by rw [hy, h.1]; linarith
  obtain ⟨k, hk, hfree⟩ := exists_contact c b h h0
  obtain ⟨_, he⟩ := updateN_free c b h k hfree
  have hc := updateN_constructed c k b h
  have hfl := updateN_floor c b h0 k
  obtain ⟨hy1, hpos, hv1⟩ := update_contact c _ hc hfl hk
  have hE : energy c (updateN c k b)
      = (updateN c k b).velocity ^ 2 + 3 / 10 * (updateN c k b).velocity
        + 2 * (3 / 10) * (c.height - (updateN c k b).radius - (updateN c k b).y) := by
    unfold energy; rw [hc.2.1]
  have hE0 : energy c b = b.velocity ^ 2 + 3 / 10 * b.velocity := by
    unfold energy; rw [h.2.1, h.1, hy]; ring
  rw [he, hE0] at hE
  have hle : (updateN c k b).velocity + 3 / 10 ≤ -b.velocity := by
    by_contra hgt
    push_neg at hgt
    nlinarith [mul_pos (sub_pos.mpr hgt)
      (by linarith : (0 : ℚ) < (updateN c k b).velocity + 3 / 10 + -b.velocity - 3 / 10)]
  refine ⟨k, ?_, ?_⟩
  · rw [updateN_succ]; exact hy1
  · rw [updateN_succ]
    rcases hv1 with hz | ⟨hhalf, heq⟩
    · exact Or.inl hz
    · exact Or.inr ⟨hhalf, by rw [heq]; linarith⟩

/-- A ball on the floor, at rest or going up, comes to rest: each bounce
multiplies the speed by at most `0.7`, and under `0.5` the ball settles. -/
theorem rest_of_bounded (c : Canvas) (m : Nat) (b : TennisBall) (h : Constructed b)
    (hy : b.y = c.height - 20)
    (hv : b.velocity = 0 ∨ (1 / 2 ≤ -b.velocity ∧ -b.velocity < 1 / 2 * (10 / 7) ^ m)) :
    ∃ n, (updateN c n b).velocity = 0 ∧ (updateN c n b).y = c.height - 20 := by
  induction m generalizing b with
  | zero =>
    rcases hv with hz | ⟨h1, h2⟩
    · exact ⟨0, hz, hy⟩
    · exfalso; simp at h2; linarith
  | succ m ih =>
    rcases hv with hz | ⟨h1, h2⟩
    · exact ⟨0, hz, hy⟩
    · obtain ⟨k, hy1, hv1⟩ := next_bounce c b h hy h1
      have hc := updateN_constructed c (k + 1) b h
      have hv2 : (updateN c (k + 1) b).velocity = 0 ∨
          (1 / 2 ≤ -(updateN c (k + 1) b).velocity ∧
            -(updateN c (k + 1) b).velocity < 1 / 2 * (10 / 7) ^ m) := by
        rcases hv1 with hz | ⟨ha, hb⟩
        · exact Or.inl hz
        · refine Or.inr ⟨ha, ?_⟩
          rw [pow_succ] at h2
          linarith
      obtain ⟨n, hn⟩ := ih _ hc hy1 hv2
      exact ⟨k + 1 + n, by rw [updateN_add]; exact hn⟩

/-- Any constructed ball that is not below the floor comes to rest on it. -/
theorem rest_of_above (c : Canvas) (b : TennisBall) (h : Constructed b)
    (h0 : b.y + b.radius ≤ c.height) :
    ∃ n, (updateN c n b).velocity = 0 ∧ (updateN c n b).y = c.height - 20 := by
  obtain ⟨k, hk, _⟩ := exists_contact c b h h0
  have hc := updateN_constructed c k b h
  obtain ⟨hy1, _, hv1⟩ := update_contact c _ hc (updateN_floor c b h0 k) hk
  obtain ⟨m, hm⟩ := pow_unbounded_of_one_lt (2 * -(update c (updateN c k b)).velocity)
    (by norm_num : (1 : ℚ) < 10 / 7)
  have hv2 : (update c (updateN c k b)).velocity = 0 ∨
      (1 / 2 ≤ -(update c (updateN c k b)).velocity ∧
        -(update c (updateN c k b)).velocity < 1 / 2 * (10 / 7) ^ m) := by
    rcases hv1 with hz | ⟨ha, _⟩
    · exact Or.inl hz
    · exact Or.inr ⟨ha, by linarith⟩
  obtain ⟨n, hn⟩ := rest_of_bounded c m _ (update_constructed c _ hc) hy1 hv2
  refine ⟨k + 1 + n, ?_⟩
  rw [updateN_add, updateN_succ]
  exact hn

/-- C9: with the canvas unchanged and a ball that starts with
`y + radius ≤ H`, in every call of `update` that takes the floor branch,
after any number of earlier calls, the velocity at contact (after the
gravity increment) is strictly positive, and the velocity the call leaves
is `≤ 0`. -/
theorem bounce_upward (c : Canvas) (b : TennisBall) (h : Constructed b)
    (h0 : b.y + b.radius ≤ c.height) (n : Nat) (hf : hitsFloor c (updateN c n b)) :
    0 < (updateN c n b).velocity + (updateN c n b).gravity ∧
    (update c (updateN c n b)).velocity ≤ 0 := by
  have hc := updateN_constructed c n b h
  obtain ⟨_, hpos, hv⟩ := update_contact c _ hc (updateN_floor c b h0 n) hf
  rw [hc.2.1]
  refine ⟨hpos, ?_⟩
  rcases hv with hz | ⟨ha, _⟩
  · exact hz.le
  · linarith

theorem bounce_upward_witness :
    Constructed sampleBall ∧ sampleBall.y + sampleBall.radius ≤ sampleCanvas.height ∧
    hitsFloor sampleCanvas (updateN sampleCanvas 0 sampleBall) ∧
    (0 < (updateN sampleCanvas 0 sampleBall).velocity
        + (updateN sampleCanvas 0 sampleBall).gravity ∧
      (update sampleCanvas (updateN sampleCanvas 0 sampleBall)).velocity ≤ 0) :=
  ⟨by unfold Constructed sampleBall; norm_num,
   by unfold sampleBall sampleCanvas; norm_num,
   by unfold updateN hitsFloor sampleBall sampleCanvas; norm_num,
   bounce_upward sampleCanvas sampleBall (by unfold Constructed sampleBall; norm_num)
     (by unfold sampleBall sampleCanvas; norm_num) 0
     (by unfold updateN hitsFloor sampleBall sampleCanvas; norm_num)⟩

/-- C10: every spawned ball comes to rest.  For every canvas of height
`H ≥ 0`, every constructed ball with initial `y` in `[-150, -50]` and
initial velocity in `[2, 5)`, there is a number `n` of `update` calls after
which the velocity is `0` and `y = H - radius`. -/
theorem comes_to_rest (c : Canvas) (b : TennisBall) (h : Constructed b)
    (hH : 0 ≤ c.height) (hy : -150 ≤ b.y ∧ b.y ≤ -50)
    (_hv : 2 ≤ b.velocity ∧ b.velocity < 5) :
    ∃ n, (updateN c n b).velocity = 0 ∧
      (updateN c n b).y = c.height - (updateN c n b).radius := by
  have h0 : b.y + b.radius ≤ c.height := by rw [h.1]; linarith [hy.2]
  obtain ⟨n, hn1, hn2⟩ := rest_of_above c b h h0
  exact ⟨n, hn1, by rw [(updateN_constructed c n b h).1]; exact hn2⟩

theorem comes_to_rest_witness :
    Constructed spawnedBall ∧ 0 ≤ sampleCanvas.height ∧
    (-150 ≤ spawnedBall.y ∧ spawnedBall.y ≤ -50) ∧
    (2 ≤ spawnedBall.velocity ∧ spawnedBall.velocity < 5) ∧
    ∃ n, (updateN sampleCanvas n spawnedBall).velocity = 0 ∧
      (updateN sampleCanvas n spawnedBall).y
        = sampleCanvas.height - (updateN sampleCanvas n spawnedBall).radius :=
  ⟨by unfold Constructed spawnedBall new; norm_num,
   by unfold sampleCanvas; norm_num,
   by unfold spawnedBall new; norm_num,
   by unfold spawnedBall new; norm_num,
   comes_to_rest sampleCanvas spawnedBall (by unfold Constructed spawnedBall new; norm_num)
     (by unfold sampleCanvas; norm_num) (by unfold spawnedBall new; norm_num)
     (by unfold spawnedBall new; norm_num)⟩

end TennisBall

end TennisSplash
